import Mathlib

/-!
Shallow embedding of the threaded gunicorn worker (`gunicorn/workers/gthread.py`)
and the liveness beacon (`gunicorn/workers/workertmp.py`).

Conventions of the embedding:
* file descriptors and socket handles are `Nat`;
* wall-clock instants and durations are `Int` (seconds);
* Python exceptions are the inductive `Exc`; a fallible operation returns
  `Except Exc _` and an uncaught exception propagates as `.error`;
* OS-level nondeterminism (what `accept` or `selectors.unregister` does at the
  syscall layer) is injected through explicit oracle parameters;
* side effects that the claims talk about (closing a socket, writing a log
  record, submitting a task) are recorded in explicit trace fields of the
  worker state.
-/

/-- Python exceptions that the worker code raises or catches. -/
inductive Exc
  | osError (errno : Int)
  | sslError (eof : Bool)
  | keyError
  | valueError
  | typeError
  | stopIteration
  | noMoreData
  | runtimeError
  | other
deriving DecidableEq, Repr

def EAGAIN : Int := 11
def EWOULDBLOCK : Int := 11
def EBADF : Int := 9
def EPIPE : Int := 32
def ECONNRESET : Int := 104
def ENOTCONN : Int := 107
def ECONNABORTED : Int := 103

/-- Model of `TConn` from gthread.py: per-connection state.  The socket handle, peer
and listener identity are opaque `Nat`s.  `timeout` is `None` until
`set_timeout` stamps it.  `blocking` mirrors `sock.setblocking`;
`hasParser` mirrors `self.parser is None`. -/
structure Conn where
  sock : Nat
  client : Nat
  server : Nat
  timeout : Option Int
  initialized : Bool
  blocking : Bool
  hasParser : Bool
deriving DecidableEq, Repr

/-- Constructor `TConn.__init__`: captures (sock, client, server) and sets the socket
non-blocking; timeout and parser start unset. -/
def Conn.make (sock client server : Nat) : Conn :=
  { sock := sock, client := client, server := server,
    timeout := none, initialized := false, blocking := false,
    hasParser := false }

/-- Method `TConn.init`: idempotent switch to blocking mode plus parser creation. -/
def Conn.init (c : Conn) : Conn :=
  { c with initialized := true, blocking := true, hasParser := true }

/-- Method `TConn.set_timeout`: stamp `now + keepalive` as the deadline. -/
def Conn.set_timeout (c : Conn) (now keepalive : Int) : Conn :=
  { c with timeout := some (now + keepalive) }

/-- Callback data registered with the poller: either an acceptor closing
over the listener's captured local address (`partial(self.accept, server)` —
the listener socket itself arrives as the select key's fileobj), or the
readable-callback closed over a keepalive connection. -/
inductive CB
  | acceptor (server : Nat)
  | onReadable (conn : Conn)
deriving DecidableEq, Repr

/-- Observable events recorded by the embedding (socket closes, log records,
executor submissions, ...). -/
inductive Ev
  | nrConnsIncr
  | registered (fd : Nat)
  | connClosed (fd : Nat)
  | submittedTask (fd : Nat)
  | logInfo
  | logDebug
  | logAccess
  | logException
  | respiterClosed
  | sockShutdown (fd : Nat)
  | preRequestHook
  | postRequestHook
  | handleErrorCalled
  | notified
deriving DecidableEq, Repr

/-- A completed `concurrent.futures` handle as `finish_request` sees it:
either cancelled, or carrying a result/exception; `conn` is the connection
attached by `_wrap_future`. -/
structure Fs where
  cancelled : Bool
  result : Except Exc (Bool × Conn)
  conn : Conn

/-- The mutable worker state that the claims are about: configuration
snapshot, liveness flags and counters, the keepalive deque (front first), the
poller registration table, in-flight futures, and effect traces. -/
structure Worker where
  worker_connections : Int
  threads : Int
  max_keepalived : Int
  keepaliveCfg : Int
  max_requests : Int
  alive : Bool
  nr : Int
  nr_conns : Int
  keep : List Conn
  regs : List (Nat × CB)
  futures : List Fs
  submitted : List Conn
  closed : List Nat
  events : List Ev

/-- Outcome the OS/selector layer forces on an `unregister` call, injected by
an oracle: `none` means the selector behaves normally (remove, or `KeyError`
when the fd is not in the table). -/
def UnregFault := Nat → Option Exc

/-- Model of `selectors.BaseSelector.unregister`: under a fault the injected exception
is raised and the table is unchanged; otherwise the fd's entry is removed,
and an unknown fd raises `KeyError`. -/
def pollerUnregister (fault : UnregFault) (regs : List (Nat × CB)) (fd : Nat) :
    Except Exc (List (Nat × CB)) :=
  match fault fd with
  | some e => .error e
  | none =>
    if regs.any (fun r => r.1 = fd) then
      .ok (regs.filter (fun r => r.1 ≠ fd))
    else
      .error .keyError

/-- The guarded unregister inside `murder_keepalived`: `OSError` with
`EBADF`, `KeyError` and `ValueError` are swallowed (table unchanged); any
other `OSError` — and any other exception — propagates. -/
def murderUnregister (fault : UnregFault) (regs : List (Nat × CB)) (fd : Nat) :
    Except Exc (List (Nat × CB)) :=
  match pollerUnregister fault regs fd with
  | .ok regs' => .ok regs'
  | .error (.osError e) => if e = EBADF then .ok regs else .error (.osError e)
  | .error .keyError => .ok regs
  | .error .valueError => .ok regs
  | .error e => .error e

/-- The loop body of `murder_keepalived`, recursing on the popped-off deque:
pop the head; an unexpired head is pushed back and the loop stops; an expired
head costs one `nr_conns`, is unregistered (guarded) and closed.  In the
source the decrement precedes the unregister; the two commute, so they are
merged into one state update here.  A `None` deadline would raise `TypeError`
at `conn.timeout - now` in Python. -/
def murderLoop (fault : UnregFault) (now : Int) (w : Worker) :
    List Conn → Except Exc Worker
  | [] => .ok { w with keep := [] }
  | conn :: rest =>
    match conn.timeout with
    | none => .error .typeError
    | some t =>
      if t - now > 0 then
        .ok { w with keep := conn :: rest }
      else
        match murderUnregister fault w.regs conn.sock with
        | .error e => .error e
        | .ok regs' =>
          murderLoop fault now
            { w with nr_conns := w.nr_conns - 1,
                     regs := regs',
                     closed := w.closed ++ [conn.sock],
                     events := w.events ++ [.connClosed conn.sock] } rest

/-- Model of `ThreadWorker.murder_keepalived`. -/
def murder_keepalived (fault : UnregFault) (now : Int) (w : Worker) :
    Except Exc Worker :=
  murderLoop fault now w w.keep

/-- Fuel-counting variant of the reaper loop: `none` means the fuel ran out
before the loop finished.  One unit of fuel pays for one iteration of the
`while True` (including the final pop attempt that raises `IndexError`). -/
def murderLoopFuel (fault : UnregFault) (now : Int) :
    Nat → Worker → List Conn → Option (Except Exc Worker)
  | 0, _, _ => none
  | _ + 1, w, [] => some (.ok { w with keep := [] })
  | fuel + 1, w, conn :: rest =>
    match conn.timeout with
    | none => some (.error .typeError)
    | some t =>
      if t - now > 0 then
        some (.ok { w with keep := conn :: rest })
      else
        match murderUnregister fault w.regs conn.sock with
        | .error e => some (.error e)
        | .ok regs' =>
          murderLoopFuel fault now fuel
            { w with nr_conns := w.nr_conns - 1,
                     regs := regs',
                     closed := w.closed ++ [conn.sock],
                     events := w.events ++ [.connClosed conn.sock] } rest

/-- A connection is expired at `now` when its stamped deadline is ≤ now
(the loop's `delta > 0` test fails). -/
def expiredAt (now : Int) (c : Conn) : Bool :=
  match c.timeout with
  | none => false
  | some t => decide (t ≤ now)

/-- The unregister faults that the reaper's `try`/`except` swallows:
no fault, `OSError(EBADF)`, `KeyError`, `ValueError`. -/
def swallowable (o : Option Exc) : Prop :=
  o = none ∨ o = some (.osError EBADF) ∨ o = some .keyError ∨ o = some .valueError

instance (o : Option Exc) : Decidable (swallowable o) := by
  unfold swallowable
  infer_instance

/-- Deadline order on connections (unset deadlines count as 0). -/
def connLE (a b : Conn) : Prop := a.timeout.getD 0 ≤ b.timeout.getD 0

/-- Example connection, stamped with deadline 50, used in closed witnesses. -/
def cEx1 : Conn :=
  { sock := 1, client := 11, server := 21, timeout := some 50,
    initialized := true, blocking := false, hasParser := true }

/-- Example connection, stamped with deadline 200, used in closed witnesses. -/
def cEx2 : Conn :=
  { sock := 2, client := 12, server := 21, timeout := some 200,
    initialized := true, blocking := false, hasParser := true }

/-- Example worker state with two keepalive connections, both registered. -/
def wEx : Worker :=
  { worker_connections := 8, threads := 4, max_keepalived := 4,
    keepaliveCfg := 5, max_requests := 1000, alive := true, nr := 0,
    nr_conns := 2, keep := [cEx1, cEx2],
    regs := [(1, .onReadable cEx1), (2, .onReadable cEx2)],
    futures := [], submitted := [], closed := [], events := [] }

/-- A fault oracle that never injects an OS-level failure. -/
def noFault : UnregFault := fun _ => none

/-- Model of `selectors.BaseSelector.register`: adds the fd's entry; a fd that is
already in the table raises `KeyError`. -/
def pollerRegister (regs : List (Nat × CB)) (fd : Nat) (cb : CB) :
    Except Exc (List (Nat × CB)) :=
  if regs.any (fun r => r.1 = fd) then .error .keyError
  else .ok (regs ++ [(fd, cb)])

/-- Model of `deque.remove`: drop the first occurrence, `ValueError` when absent. -/
def keepRemove (keep : List Conn) (c : Conn) : Except Exc (List Conn) :=
  if c ∈ keep then .ok (keep.erase c) else .error .valueError

/-- Model of `ThreadWorker.enqueue_req`: `conn.init()` then submit the connection to
the thread pool; the submission is recorded in `submitted`, completion is
modelled separately by `finish_request`. -/
def enqueue_req (w : Worker) (conn : Conn) : Worker :=
  { w with submitted := w.submitted ++ [conn.init],
           events := w.events ++ [.submittedTask conn.sock] }

/-- Model of `ThreadWorker.on_client_socket_readable`: unregister the woken fd (no
local exception handling — a failure propagates); for an initialized
connection, a `deque.remove` miss means a concurrent reaper won the race and
the wake-up path returns without submitting; otherwise the connection is
submitted to the executor. -/
def on_client_socket_readable (fault : UnregFault) (w : Worker) (conn : Conn)
    (client : Nat) : Except Exc Worker :=
  match pollerUnregister fault w.regs client with
  | .error e => .error e
  | .ok regs' =>
    if conn.initialized then
      match keepRemove w.keep conn with
      | .error _ => .ok { w with regs := regs' }
      | .ok keep' => .ok (enqueue_req { w with regs := regs', keep := keep' } conn)
    else
      .ok (enqueue_req { w with regs := regs' } conn)

/-- Model of `ThreadWorker.finish_request`, the future-completion callback.  A
cancelled handle costs one `nr_conns` and closes the attached connection.  A
successful `(keepalive, conn)` result with the worker alive makes the socket
non-blocking, stamps the deadline, appends the connection to the keepalive
deque and registers it with the poller; otherwise one `nr_conns` is given
back and the connection is closed.  A task exception — or a failure inside
the keepalive branch, which fires after the deque append — is caught by the
bare `except Exception`, which decrements `nr_conns` and closes the
attached connection, writing no log record. -/
def finish_request (now : Int) (w : Worker) (fs : Fs) : Worker :=
  if fs.cancelled then
    { w with nr_conns := w.nr_conns - 1,
             closed := w.closed ++ [fs.conn.sock],
             events := w.events ++ [.connClosed fs.conn.sock] }
  else
    match fs.result with
    | .error _ =>
      { w with nr_conns := w.nr_conns - 1,
               closed := w.closed ++ [fs.conn.sock],
               events := w.events ++ [.connClosed fs.conn.sock] }
    | .ok (keepalive, conn) =>
      if keepalive && w.alive then
        let conn' := { conn with blocking := false,
                                 timeout := some (now + w.keepaliveCfg) }
        match pollerRegister w.regs conn'.sock (.onReadable conn') with
        | .ok regs' =>
          { w with keep := w.keep ++ [conn'], regs := regs',
                   events := w.events ++ [.registered conn'.sock] }
        | .error _ =>
          { w with keep := w.keep ++ [conn'],
                   nr_conns := w.nr_conns - 1,
                   closed := w.closed ++ [fs.conn.sock],
                   events := w.events ++ [.connClosed fs.conn.sock] }
      else
        { w with nr_conns := w.nr_conns - 1,
                 closed := w.closed ++ [conn.sock],
                 events := w.events ++ [.connClosed conn.sock] }

/-- Example connection on a socket that `wEx` has not registered. -/
def cEx3 : Conn :=
  { sock := 5, client := 15, server := 21, timeout := none,
    initialized := true, blocking := true, hasParser := true }

/-- A completed handle whose task raised: used to exhibit `finish_request`'s
silent failure path. -/
def fsFail : Fs :=
  { cancelled := false, result := .error .other, conn := cEx1 }

/-- A completed handle whose task returned `(True, cEx3)`. -/
def fsOk : Fs :=
  { cancelled := false, result := .ok (true, cEx3), conn := cEx3 }

/-- What one `listener.accept()` call yields: a new socket and peer, or an
`OSError` with the given errno. -/
inductive AcceptOutcome
  | conn (sockFd client : Nat)
  | fail (errno : Int)
deriving DecidableEq, Repr

/-- Model of `ThreadWorker.accept`: on success build a `TConn`, increment `nr_conns`,
then register the new socket with the poller with the readable callback;
`EAGAIN`/`ECONNABORTED`/`EWOULDBLOCK` are swallowed, any other `OSError`
propagates. -/
def accept (outcome : AcceptOutcome) (w : Worker) (server listener : Nat) :
    Except Exc Worker :=
  match outcome with
  | .fail e =>
    if e = EAGAIN || e = ECONNABORTED || e = EWOULDBLOCK then .ok w
    else .error (.osError e)
  | .conn sockFd client =>
    let c := Conn.make sockFd client server
    match pollerRegister w.regs c.sock (.onReadable c) with
    | .error e => .error e
    | .ok regs' =>
      .ok { w with nr_conns := w.nr_conns + 1, regs := regs',
                   events := w.events ++ [.nrConnsIncr, .registered c.sock] }

/-- The response writer (`http.wsgi.Response`), kept opaque: `force_close`
sets a flag, `should_close` is that flag or a writer-internal reason
(`must_close`) fixed at creation; the writer sends headers on the first body
write and on `close`. -/
structure Resp where
  force_closed : Bool
  headers_sent : Bool
  closed : Bool
  must_close : Bool
deriving DecidableEq, Repr

def Resp.force_close (r : Resp) : Resp := { r with force_closed := true }

def Resp.should_close (r : Resp) : Bool := r.force_closed || r.must_close

/-- Behaviour of the application's response-body iterator: whether it is the
file-wrapper sentinel, how many chunks it yields, whether iteration then
raises, and whether it exposes a `close` method. -/
structure AppIter where
  isFileWrapper : Bool
  chunks : Nat
  iterRaises : Option Exc
  hasClose : Bool
deriving DecidableEq, Repr

/-- Oracle for one request turn: outcome of the `pre_request` hook, the
writer's own reason to close, the application call's outcome, and whether
the `post_request` hook raises. -/
structure TurnEnv where
  preRequest : Option Exc
  mustClose : Bool
  appCall : Except Exc AppIter
  postRequestRaises : Bool

/-- Coverage of `except OSError`: `ssl.SSLError` is an `OSError` subclass. -/
def isOSError : Exc → Bool
  | .osError _ => true
  | .sslError _ => true
  | _ => false

/-- Step 4 of `handle_request` (after `self.nr += 1`): at the request budget,
an alive worker logs and retires, and the response is force-closed. -/
def retireStep (w : Worker) (resp : Resp) : Worker × Resp :=
  if w.max_requests ≤ w.nr then
    (if w.alive then { w with alive := false, events := w.events ++ [.logInfo] }
     else w,
     resp.force_close)
  else (w, resp)

/-- Step 5 of `handle_request`: force-close when the worker is dead, when
keepalive is configured off, or when the keepalive deque is at capacity. -/
def forceCloseStep (w : Worker) (resp : Resp) : Resp :=
  if w.alive = false ∨ w.keepaliveCfg = 0 then resp.force_close
  else if w.max_keepalived ≤ (w.keep.length : Int) then resp.force_close
  else resp

/-- The inner `try` of `handle_request`: stream the body (file-wrapper fast
path or chunk loop) and `resp.close()`; the writer marks headers sent on the
first write, and `close` sends them in any case. -/
def iterateBody (it : AppIter) (resp : Resp) : Except Exc Unit × Resp :=
  let resp1 := { resp with
    headers_sent := resp.headers_sent || it.isFileWrapper || decide (0 < it.chunks) }
  match it.iterRaises with
  | some e => (.error e, resp1)
  | none => (.ok (), { resp1 with headers_sent := true, closed := true })

/-- The inner `finally` of `handle_request`: the access-log record is
written, then the iterator's `close` is called when it has one. -/
def finallyAccess (it : AppIter) (w : Worker) : Worker :=
  let w1 := { w with events := w.events ++ [.logAccess] }
  if it.hasClose then { w1 with events := w1.events ++ [.respiterClosed] }
  else w1

/-- The body of `handle_request`'s outer `try`: `pre_request` hook, response
creation, request counting and retirement, the force-close policy, the
application call, body iteration with its `finally`, and the
`should_close` decision.  Control outcome, the response (None when the hook
raised before `wsgi.create`), and the worker state are all returned. -/
def hrTryBody (env : TurnEnv) (w0 : Worker) :
    Except Exc Bool × Option Resp × Worker :=
  match env.preRequest with
  | some e => (.error e, none, { w0 with events := w0.events ++ [.preRequestHook] })
  | none =>
    let w1 := { w0 with events := w0.events ++ [.preRequestHook], nr := w0.nr + 1 }
    match retireStep w1 { force_closed := false, headers_sent := false,
                          closed := false, must_close := env.mustClose } with
    | (w2, resp1) =>
      let resp2 := forceCloseStep w2 resp1
      match env.appCall with
      | .error e => (.error e, some resp2, w2)
      | .ok it =>
        match iterateBody it resp2 with
        | (r, resp3) =>
          let w3 := finallyAccess it w2
          match r with
          | .error e => (.error e, some resp3, w3)
          | .ok _ =>
            if resp3.should_close then
              (.ok false, some resp3, { w3 with events := w3.events ++ [.logDebug] })
            else (.ok true, some resp3, w3)

/-- Model of `ThreadWorker.handle_request`: the `try` body, then `except OSError`
(reraise), then `except Exception` (with headers already sent: log, shut the
socket down and raise `StopIteration`; otherwise re-raise), then the
`finally` that runs `post_request` and swallows-and-logs its failure. -/
def handle_request (env : TurnEnv) (conn : Conn) (w0 : Worker) :
    Except Exc Bool × Option Resp × Worker :=
  match hrTryBody env w0 with
  | (r, orsp, w1) =>
    let step : Except Exc Bool × Worker :=
      match r with
      | .ok b => (.ok b, w1)
      | .error e =>
        if isOSError e then (.error e, w1)
        else
          match orsp with
          | some resp =>
            if resp.headers_sent then
              (.error .stopIteration,
               { w1 with closed := w1.closed ++ [conn.sock],
                         events := w1.events ++ [.logException, .sockShutdown conn.sock] })
            else (.error e, w1)
          | none => (.error e, w1)
    if env.postRequestRaises then
      (step.1, orsp,
       { step.2 with events := step.2.events ++ [.postRequestHook, .logException] })
    else
      (step.1, orsp, { step.2 with events := step.2.events ++ [.postRequestHook] })

/-- The `except` ladder of `ThreadWorker.handle`: every exception class is
absorbed and the function falls through to `return (False, conn)`. -/
def handleExcState (e : Exc) (conn : Conn) (w : Worker) : Worker :=
  match e with
  | .noMoreData => { w with events := w.events ++ [.logDebug] }
  | .stopIteration => { w with events := w.events ++ [.logDebug] }
  | .sslError true => { w with events := w.events ++ [.logDebug],
                               closed := w.closed ++ [conn.sock] }
  | .sslError false => { w with events := w.events ++ [.logDebug, .handleErrorCalled] }
  | .osError errno =>
    if errno = EPIPE ∨ errno = ECONNRESET ∨ errno = ENOTCONN then
      { w with events := w.events ++ [.logDebug] }
    else
      { w with events := w.events ++ [.logException] }
  | _ => { w with events := w.events ++ [.handleErrorCalled] }

/-- Oracle for one `handle` call: what `next(conn.parser)` yields (`none`
models a falsy request) and the turn oracle. -/
structure HandleEnv where
  parserNext : Except Exc (Option Unit)
  turn : TurnEnv

/-- Model of `ThreadWorker.handle`: parse, run the turn, and absorb every exception;
the result is `(keepalive, conn)` with `keepalive = true` only when
`handle_request` completed and decided the connection may be reused. -/
def handle (henv : HandleEnv) (w0 : Worker) (conn : Conn) :
    (Bool × Conn) × Option Resp × Worker :=
  match henv.parserNext with
  | .error e => ((false, conn), none, handleExcState e conn w0)
  | .ok none => ((false, conn), none, w0)
  | .ok (some _) =>
    match handle_request henv.turn conn w0 with
    | (.ok b, orsp, w1) =>
      if b then ((true, conn), orsp, w1) else ((false, conn), orsp, w1)
    | (.error e, orsp, w1) => ((false, conn), orsp, handleExcState e conn w1)

/-- Oracle for one dispatch-loop iteration: current time, the fds `select`
reports ready, what each listener's `accept()` yields, unregister faults,
which in-flight futures completed, and whether the parent pid changed. -/
structure IterEnv where
  now : Int
  ready : List Nat
  acceptOutcome : Nat → AcceptOutcome
  fault : UnregFault
  doneP : Fs → Bool
  parentChanged : Bool

/-- What one loop iteration did: whether `poller.select` ran and the timeout
(in milliseconds) passed to `futures.wait`. -/
structure IterInfo where
  selectCalled : Bool
  waitTimeoutMs : Nat
deriving DecidableEq, Repr

/-- Dispatch of `callback(key.fileobj)`: an acceptor receives the listener fd, the
readable callback receives the woken client fd. -/
def invokeCallback (env : IterEnv) (w : Worker) (fd : Nat) (cb : CB) :
    Except Exc Worker :=
  match cb with
  | .acceptor server => accept (env.acceptOutcome fd) w server fd
  | .onReadable conn => on_client_socket_readable env.fault w conn fd

/-- The `for key, _ in events` loop of `run`: invoke each ready key's
callback in order; an exception propagates out of the loop. -/
def runCallbacks (env : IterEnv) : Worker → List (Nat × CB) → Except Exc Worker
  | w, [] => .ok w
  | w, (fd, cb) :: rest =>
    match invokeCallback env w fd cb with
    | .error e => .error e
    | .ok w' => runCallbacks env w' rest

/-- Tail of one loop iteration after the futures wait: the parent-alive
check (a changed ppid breaks the loop, skipping the reaper), then
`murder_keepalived`. -/
def afterWait (env : IterEnv) (w : Worker) (info : IterInfo) :
    Except Exc (Worker × Bool) × IterInfo :=
  if env.parentChanged then (.ok (w, false), info)
  else
    match murder_keepalived env.fault env.now w with
    | .error e => (.error e, info)
    | .ok w' => (.ok (w', true), info)

/-- One iteration of `ThreadWorker.run`'s `while self.alive` loop: notify
the beacon; below `worker_connections` poll the network with a 1.0 s select
and run the ready callbacks, then check finished futures without waiting;
when saturated skip the select entirely and wait up to 1.0 s for a future.
The returned Bool is false when the loop must break (parent changed). -/
def runIteration (env : IterEnv) (w : Worker) :
    Except Exc (Worker × Bool) × IterInfo :=
  let w0 := { w with events := w.events ++ [.notified] }
  if w0.nr_conns < w0.worker_connections then
    match runCallbacks env w0 (w0.regs.filter (fun r => r.1 ∈ env.ready)) with
    | .error e => (.error e, { selectCalled := true, waitTimeoutMs := 0 })
    | .ok w1 =>
      afterWait env { w1 with futures := w1.futures.filter (fun f => !env.doneP f) }
        { selectCalled := true, waitTimeoutMs := 0 }
  else
    afterWait env { w0 with futures := w0.futures.filter (fun f => !env.doneP f) }
      { selectCalled := false, waitTimeoutMs := 1000 }

/-- The dispatch loop with fuel-bounded iterations (the shutdown sequence
after the loop is outside the claims' scope). -/
def runLoop (envs : Nat → IterEnv) : Nat → Worker → Except Exc Worker
  | 0, w => .ok w
  | fuel + 1, w =>
    if w.alive then
      match (runIteration (envs fuel) w).1 with
      | .error e => .error e
      | .ok (w', true) => runLoop envs fuel w'
      | .ok (w', false) => .ok w'
    else .ok w

/-- Configuration slice consumed by `WorkerTmp.__init__`. -/
structure TmpCfg where
  umask : Nat
  worker_tmp_dir : Option String
  uid : Nat
  gid : Nat

/-- A directory entry, remembering the umask in force when it was created
and its owner. -/
structure FileEntry where
  path : String
  createdUmask : Nat
  owner : Nat × Nat
deriving DecidableEq, Repr

/-- The slice of OS state `WorkerTmp.__init__` touches: the process umask,
existing directories, directory entries, open descriptors, the effective
uid/gid, plus an append-only audit list of every file ever created. -/
structure OSState where
  umask : Nat
  dirs : List String
  files : List FileEntry
  fds : List (Nat × String)
  nextFd : Nat
  euid : Nat
  egid : Nat
  created : List FileEntry

/-- The handle `WorkerTmp` keeps: the descriptor and the `os.fdopen`
arguments (mode `w+b`, buffering 0 = unbuffered). -/
structure TmpHandle where
  fd : Nat
  buffering : Nat
  mode : String
deriving DecidableEq, Repr

/-- Stand-in for `tempfile.gettempdir()`, used when no directory is configured. -/
def gettempdir : String := "/tmp"

/-- The body of `WorkerTmp.__init__` after the directory check: `mkstemp`
under the resolved directory while `cfg.umask` is in force, restore the old
umask, chown when the worker runs as a different uid/gid, unlink the path
on non-Cygwin platforms, and `fdopen(fd, "w+b", 0)`. -/
def workertmpCore (isCygwin : Bool) (suffix : String) (cfg : TmpCfg)
    (old : Nat) (os1 : OSState) (fdir : String) : OSState × TmpHandle :=
  let name := fdir ++ "/wgunicorn-" ++ suffix
  let entry : FileEntry := { path := name, createdUmask := os1.umask,
                             owner := (os1.euid, os1.egid) }
  let fd := os1.nextFd
  let os2 := { os1 with files := os1.files ++ [entry],
                        fds := os1.fds ++ [(fd, name)],
                        nextFd := fd + 1,
                        created := os1.created ++ [entry] }
  let os3 := { os2 with umask := old }
  let os4 :=
    if cfg.uid ≠ os3.euid ∨ cfg.gid ≠ os3.egid then
      { os3 with
        files := os3.files.map (fun f =>
          if f.path = name then { f with owner := (cfg.uid, cfg.gid) } else f) }
    else os3
  let os5 :=
    if isCygwin then os4
    else { os4 with files := os4.files.filter (fun f => f.path ≠ name) }
  (os5, { fd := fd, buffering := 0, mode := "w+b" })

/-- Model of `WorkerTmp.__init__`: set the configured umask (remembering the old
one), fail with `RuntimeError` when a configured directory does not exist,
then create the beacon.  `suffix` stands for the random part of the
`mkstemp` name. -/
def workertmp_init (isCygwin : Bool) (suffix : String) (cfg : TmpCfg)
    (os : OSState) : Except Exc (OSState × TmpHandle) :=
  let os1 := { os with umask := cfg.umask }
  match cfg.worker_tmp_dir with
  | some fdir =>
    if fdir ∈ os1.dirs then
      .ok (workertmpCore isCygwin suffix cfg os.umask os1 fdir)
    else .error .runtimeError
  | none => .ok (workertmpCore isCygwin suffix cfg os.umask os1 gettempdir)

/-- An iterator that yields two chunks, raises and is closable. -/
def appIterRaising : AppIter :=
  { isFileWrapper := false, chunks := 2, iterRaises := some .other,
    hasClose := true }

/-- A clean turn: hooks succeed, the app yields the raising iterator. -/
def turnEnvEx : TurnEnv :=
  { preRequest := none, mustClose := false, appCall := .ok appIterRaising,
    postRequestRaises := false }

/-- Worker at the `threads=1, worker_connections=1` boundary, so
`max_keepalived = 0`. -/
def wSmall : Worker :=
  { wEx with threads := 1, worker_connections := 1, max_keepalived := 0,
             keep := [], regs := [], nr_conns := 0 }

/-- Worker one request away from its budget. -/
def wBudget : Worker :=
  { wEx with nr := 999, max_requests := 1000 }

/-- Saturated worker: as many connections as `worker_connections`. -/
def wSat : Worker :=
  { wEx with nr_conns := 8 }

/-- A quiet loop-iteration oracle. -/
def iterEnvEx : IterEnv :=
  { now := 300, ready := [], acceptOutcome := fun _ => .fail EAGAIN,
    fault := noFault, doneP := fun _ => false, parentChanged := false }

/-- Directory configured for the beacon example. -/
def tmpDirEx : String := "/run/gunicorn"

/-- Random part of the beacon example's mkstemp name. -/
def suffixEx : String := "abc123"

/-- Beacon configuration example: umask 0o077, a configured directory. -/
def cfgEx : TmpCfg :=
  { umask := 63, worker_tmp_dir := some tmpDirEx, uid := 33, gid := 33 }

/-- OS example state: the configured directory exists, umask starts 0o022. -/
def osEx : OSState :=
  { umask := 18, dirs := [tmpDirEx], files := [], fds := [],
    nextFd := 4, euid := 0, egid := 0, created := [] }

theorem murderUnregister_ok_of_swallowable (fault : UnregFault)
    (regs : List (Nat × CB)) (fd : Nat) (h : swallowable (fault fd)) :
    ∃ regs', murderUnregister fault regs fd = .ok regs' ∧
      List.Sublist regs' regs ∧
      (fault fd = none → ∀ r ∈ regs', r.1 ≠ fd) := by
  rcases h with h | h | h | h
  · by_cases hany : regs.any (fun r => r.1 = fd) = true
    · refine ⟨regs.filter (fun r => r.1 ≠ fd), ?_, List.filter_sublist _, ?_⟩
      · simp [murderUnregister, pollerUnregister, h, hany]
      · intro _ r hr
        have := List.of_mem_filter hr
        simpa using this
    · refine ⟨regs, ?_, List.Sublist.refl _, ?_⟩
      · simp [murderUnregister, pollerUnregister, h, hany]
      · intro _ r hr
        have hall := (List.any_eq_true).not.mp hany
        push_neg at hall
        have := hall r hr
        simpa using this
  · exact ⟨regs, by simp [murderUnregister, pollerUnregister, h, EBADF],
      List.Sublist.refl _, by simp [h]⟩
  · exact ⟨regs, by simp [murderUnregister, pollerUnregister, h],
      List.Sublist.refl _, by simp [h]⟩
  · exact ⟨regs, by simp [murderUnregister, pollerUnregister, h],
      List.Sublist.refl _, by simp [h]⟩

theorem murderLoop_spec (fault : UnregFault) (now : Int) :
    ∀ (ks : List Conn) (w : Worker),
    (∀ c ∈ ks, c.timeout ≠ none) →
    (∀ c ∈ ks.takeWhile (expiredAt now), swallowable (fault c.sock)) →
    ∃ w', murderLoop fault now w ks = .ok w' ∧
      w'.keep = ks.dropWhile (expiredAt now) ∧
      w'.nr_conns = w.nr_conns - ((ks.takeWhile (expiredAt now)).length : Int) ∧
      w'.closed = w.closed ++ (ks.takeWhile (expiredAt now)).map Conn.sock ∧
      List.Sublist w'.regs w.regs ∧
      (∀ c ∈ ks.takeWhile (expiredAt now), fault c.sock = none →
        ∀ r ∈ w'.regs, r.1 ≠ c.sock) := by
  intro ks
  induction ks with
  | nil =>
    intro w _ _
    exact ⟨{ w with keep := [] }, rfl, by simp, by simp, by simp,
      List.Sublist.refl _, by simp⟩
  | cons c rest ih =>
    intro w h1 h2
    obtain ⟨t, ht⟩ : ∃ t, c.timeout = some t := by
      cases hc : c.timeout
      · exact absurd hc (h1 c (by simp))
      · exact ⟨_, rfl⟩
    by_cases hexp : expiredAt now c = true
    · have hle : t ≤ now := by
        have := hexp
        rw [expiredAt, ht] at this
        simpa using this
      have htw : (c :: rest).takeWhile (expiredAt now)
          = c :: rest.takeWhile (expiredAt now) := by
        simp [List.takeWhile_cons, hexp]
      have hdw : (c :: rest).dropWhile (expiredAt now)
          = rest.dropWhile (expiredAt now) := by
        simp [List.dropWhile_cons, hexp]
      have hsw : swallowable (fault c.sock) := by
        refine h2 c ?_
        rw [htw]; exact List.mem_cons_self _ _
      obtain ⟨regs', hequ, hsub, habs⟩ :=
        murderUnregister_ok_of_swallowable fault w.regs c.sock hsw
      obtain ⟨w', hw', hkeep, hnr, hclosed, hsub', habs'⟩ :=
        ih { w with nr_conns := w.nr_conns - 1, regs := regs',
                    closed := w.closed ++ [c.sock],
                    events := w.events ++ [.connClosed c.sock] }
          (fun c' hc' => h1 c' (List.mem_cons_of_mem _ hc'))
          (fun c' hc' => h2 c' (by rw [htw]; exact List.mem_cons_of_mem _ hc'))
      refine ⟨w', ?_, ?_, ?_, ?_, ?_, ?_⟩
      · simp only [murderLoop, ht]
        rw [if_neg (by omega), hequ]
        exact hw'
      · rw [hkeep, hdw]
      · rw [hnr, htw]
        simp only [List.length_cons]
        push_cast
        ring
      · rw [hclosed, htw]
        simp
      · exact hsub'.trans hsub
      · intro c' hc' hnone r hr
        rw [htw] at hc'
        rcases List.mem_cons.mp hc' with hc' | hc'
        · subst hc'
          exact habs hnone r (hsub'.subset hr)
        · exact habs' c' hc' hnone r hr
    · have hgt : t - now > 0 := by
        rw [expiredAt, ht] at hexp
        simp at hexp
        omega
      have htw : (c :: rest).takeWhile (expiredAt now) = [] := by
        simp [List.takeWhile_cons, hexp]
      have hdw : (c :: rest).dropWhile (expiredAt now) = c :: rest := by
        simp [List.dropWhile_cons, hexp]
      refine ⟨{ w with keep := c :: rest }, ?_, by simp [hdw], by simp [htw],
        by simp [htw], List.Sublist.refl _, by simp [htw]⟩
      simp only [murderLoop, ht]
      rw [if_pos hgt]

/-- C1: `murder_keepalived` pops expired connections from the front of the
keepalive deque while the head's deadline is ≤ now; every expired connection
is closed and costs one `nr_conns`; unregister faults `EBADF`/`KeyError`/
`ValueError` are swallowed and, absent a fault, the socket leaves the poller
table; an unexpired head is re-inserted at the front and reaping stops; a
non-`EBADF` `OSError` from unregister propagates; and on a deadline-ordered
deque the reaped connections come out in non-decreasing deadline order. -/
theorem murder_keepalived_reaps_expired (fault : UnregFault)
    (now : Int) (w : Worker) :
    ((∀ c ∈ w.keep, c.timeout ≠ none) →
     (∀ c ∈ w.keep.takeWhile (expiredAt now), swallowable (fault c.sock)) →
     ∃ w', murder_keepalived fault now w = .ok w' ∧
       w'.keep = w.keep.dropWhile (expiredAt now) ∧
       w'.nr_conns = w.nr_conns - ((w.keep.takeWhile (expiredAt now)).length : Int) ∧
       w'.closed = w.closed ++ (w.keep.takeWhile (expiredAt now)).map Conn.sock ∧
       List.Sublist w'.regs w.regs ∧
       (∀ c ∈ w.keep.takeWhile (expiredAt now), fault c.sock = none →
         ∀ r ∈ w'.regs, r.1 ≠ c.sock)) ∧
    (∀ c rest t e, w.keep = c :: rest → c.timeout = some t → t ≤ now →
       fault c.sock = some (.osError e) → e ≠ EBADF →
       murder_keepalived fault now w = .error (.osError e)) ∧
    (List.Pairwise connLE w.keep →
       List.Pairwise connLE (w.keep.takeWhile (expiredAt now))) := by
  refine ⟨?_, ?_, ?_⟩
  · intro h1 h2
    exact murderLoop_spec fault now w.keep w h1 h2
  · intro c rest t e hkeep ht hle hf he
    rw [murder_keepalived, hkeep]
    simp only [murderLoop, ht]
    rw [if_neg (by omega)]
    simp [murderUnregister, pollerUnregister, hf, he]
  · intro h
    exact h.sublist (List.takeWhile_sublist _)

/-- Closed witness for C1: reaping `wEx` at time 100 removes exactly the
expired head `cEx1` and stops at `cEx2`. -/
theorem murder_keepalived_reaps_expired_witness :
    ∃ w', murder_keepalived noFault 100 wEx = .ok w' ∧
      w'.keep = wEx.keep.dropWhile (expiredAt 100) ∧
      w'.nr_conns = wEx.nr_conns - ((wEx.keep.takeWhile (expiredAt 100)).length : Int) ∧
      w'.closed = wEx.closed ++ (wEx.keep.takeWhile (expiredAt 100)).map Conn.sock ∧
      List.Sublist w'.regs wEx.regs ∧
      (∀ c ∈ wEx.keep.takeWhile (expiredAt 100), noFault c.sock = none →
        ∀ r ∈ w'.regs, r.1 ≠ c.sock) :=
  (murder_keepalived_reaps_expired noFault 100 wEx).1
    (by decide) (by decide)

theorem murderLoopFuel_eq (fault : UnregFault) (now : Int) :
    ∀ (ks : List Conn) (fuel : Nat) (w : Worker), ks.length + 1 ≤ fuel →
    murderLoopFuel fault now fuel w ks = some (murderLoop fault now w ks) := by
  intro ks
  induction ks with
  | nil =>
    intro fuel w h
    match fuel, h with
    | f + 1, _ => rfl
  | cons c rest ih =>
    intro fuel w h
    match fuel, h with
    | f + 1, h =>
      cases ht : c.timeout with
      | none => simp [murderLoopFuel, murderLoop, ht]
      | some t =>
        by_cases hgt : t - now > 0
        · simp only [murderLoopFuel, murderLoop, ht]
          rw [if_pos hgt, if_pos hgt]
        · simp only [murderLoopFuel, murderLoop, ht]
          rw [if_neg hgt, if_neg hgt]
          cases hequ : murderUnregister fault w.regs c.sock with
          | error e => rfl
          | ok regs' =>
            exact ih f _ (by simpa using Nat.succ_le_succ_iff.mp h)

/-- C10: the reaper terminates — with fuel of one more than the initial
keepalive-deque length, the fuel-counting loop finishes and agrees with
`murder_keepalived`; each iteration either stops or removes one connection,
so at most `|K| + 1` iterations run. -/
theorem murder_keepalived_terminates (fault : UnregFault) (now : Int)
    (w : Worker) (fuel : Nat) (h : w.keep.length + 1 ≤ fuel) :
    murderLoopFuel fault now fuel w w.keep
      = some (murder_keepalived fault now w) :=
  murderLoopFuel_eq fault now w.keep fuel w h

/-- Closed witness for C10: fuel 3 = |keep| + 1 suffices on `wEx`. -/
theorem murder_keepalived_terminates_witness :
    murderLoopFuel noFault 100 3 wEx wEx.keep
      = some (murder_keepalived noFault 100 wEx) :=
  murder_keepalived_terminates noFault 100 wEx 3 (by decide)

/-- C2 (amended): `finish_request` on a cancelled handle gives back one
`nr_conns` and closes the attached connection; on a `(True, C)` result with
the worker alive it makes C's socket non-blocking, stamps C's deadline,
appends C to the keepalive deque and registers C's socket with the poller;
otherwise it gives back one `nr_conns` and closes C; and on a task exception
it gives back one `nr_conns` and closes the attached connection — writing no
log record. -/
theorem finish_request_branches (now : Int) (w : Worker) (fs : Fs) :
    (fs.cancelled = true →
      finish_request now w fs
        = { w with nr_conns := w.nr_conns - 1,
                   closed := w.closed ++ [fs.conn.sock],
                   events := w.events ++ [.connClosed fs.conn.sock] }) ∧
    (∀ conn, fs.cancelled = false → fs.result = .ok (true, conn) →
      w.alive = true → (∀ r ∈ w.regs, r.1 ≠ conn.sock) →
      finish_request now w fs
        = { w with
            keep := w.keep ++
              [Conn.set_timeout { conn with blocking := false }
                now w.keepaliveCfg],
            regs := w.regs ++ [(conn.sock,
              .onReadable (Conn.set_timeout { conn with blocking := false }
                now w.keepaliveCfg))],
            events := w.events ++ [.registered conn.sock] }) ∧
    (∀ kl conn, fs.cancelled = false → fs.result = .ok (kl, conn) →
      (kl = false ∨ w.alive = false) →
      finish_request now w fs
        = { w with nr_conns := w.nr_conns - 1,
                   closed := w.closed ++ [conn.sock],
                   events := w.events ++ [.connClosed conn.sock] }) ∧
    (∀ e, fs.cancelled = false → fs.result = .error e →
      finish_request now w fs
        = { w with nr_conns := w.nr_conns - 1,
                   closed := w.closed ++ [fs.conn.sock],
                   events := w.events ++ [.connClosed fs.conn.sock] }) := by
  refine ⟨?_, ?_, ?_, ?_⟩
  · intro hc
    simp [finish_request, hc]
  · intro conn hc hres halive hfresh
    have hany : w.regs.any (fun r => r.1 = conn.sock) = false := by
      rw [List.any_eq_false]
      intro r hr
      simpa using hfresh r hr
    simp [finish_request, hc, hres, halive, pollerRegister, hany,
      Conn.set_timeout]
  · intro kl conn hc hres hstop
    rcases hstop with h | h
    · simp [finish_request, hc, hres, h]
    · simp [finish_request, hc, hres, h]
  · intro e hc hres
    simp [finish_request, hc, hres]

/-- Closed witness for C2: the keepalive branch on `fsOk` at time 7. -/
theorem finish_request_branches_witness :
    finish_request 7 wEx fsOk
      = { wEx with
          keep := wEx.keep ++
            [Conn.set_timeout { cEx3 with blocking := false }
              7 wEx.keepaliveCfg],
          regs := wEx.regs ++ [(cEx3.sock,
            .onReadable (Conn.set_timeout { cEx3 with blocking := false }
              7 wEx.keepaliveCfg))],
          events := wEx.events ++ [.registered cEx3.sock] } :=
  (finish_request_branches 7 wEx fsOk).2.1 cEx3 rfl rfl rfl (by decide)

/-- Counterexample for C2 as stated: when the task failed with an exception,
`finish_request` decrements `nr_conns` and closes the connection but writes
no log record at all — its event trace gains only the close. -/
theorem finish_request_failure_not_logged :
    (finish_request 0 wEx fsFail).nr_conns = wEx.nr_conns - 1 ∧
    (finish_request 0 wEx fsFail).closed = wEx.closed ++ [cEx1.sock] ∧
    (finish_request 0 wEx fsFail).events = [Ev.connClosed 1] ∧
    Ev.logException ∉ (finish_request 0 wEx fsFail).events ∧
    Ev.logInfo ∉ (finish_request 0 wEx fsFail).events ∧
    Ev.logDebug ∉ (finish_request 0 wEx fsFail).events ∧
    Ev.logAccess ∉ (finish_request 0 wEx fsFail).events := by
  decide

/-- C3: when an initialized keepalive connection's socket wakes up, the
readable path first unregisters the fd and then tries `deque.remove`; a miss
(the reaper already took the connection) aborts the path with no executor
submission, a hit removes the connection and submits it exactly once. -/
theorem on_client_socket_readable_handoff (fault : UnregFault) (w : Worker)
    (conn : Conn) (client : Nat)
    (hinit : conn.initialized = true)
    (hfault : fault client = none)
    (hreg : client ∈ w.regs.map Prod.fst) :
    (conn ∉ w.keep →
      on_client_socket_readable fault w conn client
        = .ok { w with regs := w.regs.filter (fun r => r.1 ≠ client) }) ∧
    (conn ∈ w.keep →
      on_client_socket_readable fault w conn client
        = .ok { w with regs := w.regs.filter (fun r => r.1 ≠ client),
                       keep := w.keep.erase conn,
                       submitted := w.submitted ++ [conn.init],
                       events := w.events ++ [.submittedTask conn.sock] }) := by
  have hany : w.regs.any (fun r => r.1 = client) = true := by
    rw [List.any_eq_true]
    obtain ⟨r, hr, hfd⟩ := List.mem_map.mp hreg
    exact ⟨r, hr, by simpa using hfd⟩
  constructor
  · intro hmiss
    simp [on_client_socket_readable, pollerUnregister, hfault, hany, hinit,
      keepRemove, hmiss]
  · intro hmem
    simp [on_client_socket_readable, pollerUnregister, hfault, hany, hinit,
      keepRemove, hmem, enqueue_req]

/-- Closed witness for C3: waking `cEx1` (a member of `wEx.keep`) submits it
exactly once. -/
theorem on_client_socket_readable_handoff_witness :
    on_client_socket_readable noFault wEx cEx1 1
      = .ok { wEx with regs := wEx.regs.filter (fun r => r.1 ≠ 1),
                       keep := wEx.keep.erase cEx1,
                       submitted := wEx.submitted ++ [cEx1.init],
                       events := wEx.events ++ [.submittedTask cEx1.sock] } :=
  (on_client_socket_readable_handoff noFault wEx cEx1 1 (by decide) rfl
    (by decide)).2 (by decide)

/-- C7: a successful accept builds the connection, increments `nr_conns` and
only then registers the new socket for read-readiness with the readable
callback (the event trace shows the increment before the registration);
`EAGAIN`/`EWOULDBLOCK`/`ECONNABORTED` are silently swallowed with no state
change, and any other `OSError` propagates. -/
theorem accept_increments_then_registers (outcome : AcceptOutcome)
    (w : Worker) (server listener : Nat) :
    (∀ sockFd client, outcome = .conn sockFd client →
      (∀ r ∈ w.regs, r.1 ≠ sockFd) →
      accept outcome w server listener
        = .ok { w with
                nr_conns := w.nr_conns + 1,
                regs := w.regs ++
                  [(sockFd, .onReadable (Conn.make sockFd client server))],
                events := w.events ++ [.nrConnsIncr, .registered sockFd] }) ∧
    (∀ e, outcome = .fail e →
      (e = EAGAIN ∨ e = EWOULDBLOCK ∨ e = ECONNABORTED) →
      accept outcome w server listener = .ok w) ∧
    (∀ e, outcome = .fail e → e ≠ EAGAIN → e ≠ EWOULDBLOCK →
      e ≠ ECONNABORTED →
      accept outcome w server listener = .error (.osError e)) := by
  refine ⟨?_, ?_, ?_⟩
  · intro sockFd client ho hfresh
    have hany : w.regs.any (fun r => r.1 = sockFd) = false := by
      rw [List.any_eq_false]
      intro r hr
      simpa using hfresh r hr
    subst ho
    simp [accept, pollerRegister, Conn.make, hany]
  · intro e ho he
    subst ho
    rcases he with h | h | h <;>
      simp [accept, h, EAGAIN, EWOULDBLOCK, ECONNABORTED]
  · intro e ho h1 h2 h3
    subst ho
    simp [accept, h1, h2, h3]

/-- Closed witness for C7: accepting socket 7 on `wEx` first pays for the
connection, then registers it. -/
theorem accept_increments_then_registers_witness :
    accept (.conn 7 17) wEx 21 31
      = .ok { wEx with
              nr_conns := wEx.nr_conns + 1,
              regs := wEx.regs ++ [(7, .onReadable (Conn.make 7 17 21))],
              events := wEx.events ++ [.nrConnsIncr, .registered 7] } :=
  (accept_increments_then_registers (.conn 7 17) wEx 21 31).1 7 17 rfl
    (by decide)

theorem retireStep_fields (w : Worker) (resp : Resp) :
    (retireStep w resp).1.keep = w.keep ∧
    (retireStep w resp).1.keepaliveCfg = w.keepaliveCfg ∧
    (retireStep w resp).1.max_keepalived = w.max_keepalived ∧
    (retireStep w resp).1.nr = w.nr ∧
    (w.alive = false → (retireStep w resp).1.alive = false) := by
  unfold retireStep
  by_cases h : w.max_requests ≤ w.nr
  · cases ha : w.alive <;> simp [h, ha]
  · simp [h]

theorem retireStep_retires (w : Worker) (resp : Resp)
    (h : w.max_requests ≤ w.nr) :
    (retireStep w resp).1.alive = false ∧
    (retireStep w resp).2.force_closed = true := by
  unfold retireStep
  cases ha : w.alive <;> simp [h, ha, Resp.force_close]

theorem forceCloseStep_forced (w : Worker) (resp : Resp)
    (h : w.alive = false ∨ w.keepaliveCfg = 0 ∨
      w.max_keepalived ≤ (w.keep.length : Int)) :
    (forceCloseStep w resp).force_closed = true := by
  unfold forceCloseStep
  by_cases h1 : w.alive = false ∨ w.keepaliveCfg = 0
  · simp [h1, Resp.force_close]
  · have h3 : w.max_keepalived ≤ (w.keep.length : Int) := by tauto
    simp [h1, h3, Resp.force_close]

theorem forceCloseStep_keeps_forced (w : Worker) (resp : Resp)
    (h : resp.force_closed = true) :
    (forceCloseStep w resp).force_closed = true := by
  unfold forceCloseStep
  split
  · simp [Resp.force_close]
  · split
    · simp [Resp.force_close]
    · exact h

theorem iterateBody_force_closed (it : AppIter) (resp : Resp) :
    (iterateBody it resp).2.force_closed = resp.force_closed := by
  unfold iterateBody
  cases h : it.iterRaises <;> simp [h]

theorem finallyAccess_fields (it : AppIter) (w : Worker) :
    (finallyAccess it w).nr = w.nr ∧ (finallyAccess it w).alive = w.alive := by
  unfold finallyAccess
  cases h : it.hasClose <;> simp [h]

theorem hrTryBody_nr (env : TurnEnv) (w : Worker)
    (hpre : env.preRequest = none) :
    (hrTryBody env w).2.2.nr = w.nr + 1 := by
  obtain ⟨-, -, -, hnr, -⟩ := retireStep_fields
    { w with events := w.events ++ [.preRequestHook], nr := w.nr + 1 }
    { force_closed := false, headers_sent := false,
      closed := false, must_close := env.mustClose }
  simp only [hrTryBody, hpre]
  cases happ : env.appCall with
  | error e => simpa using hnr
  | ok it =>
    obtain ⟨hfa, -⟩ := finallyAccess_fields it
      (retireStep { w with events := w.events ++ [.preRequestHook], nr := w.nr + 1 }
        { force_closed := false, headers_sent := false,
          closed := false, must_close := env.mustClose }).1
    cases hi : (iterateBody it (forceCloseStep
        (retireStep { w with events := w.events ++ [.preRequestHook], nr := w.nr + 1 }
          { force_closed := false, headers_sent := false,
            closed := false, must_close := env.mustClose }).1
        (retireStep { w with events := w.events ++ [.preRequestHook], nr := w.nr + 1 }
          { force_closed := false, headers_sent := false,
            closed := false, must_close := env.mustClose }).2)).1 with
    | error e =>
      simp only [hi]
      rw [hfa]
      simpa using hnr
    | ok u =>
      simp only [hi]
      split
      · simp only [Worker.nr]
        rw [hfa]
        simpa using hnr
      · rw [hfa]
        simpa using hnr

theorem hrTryBody_forced (env : TurnEnv) (w : Worker)
    (hpre : env.preRequest = none)
    (hcond : w.alive = false ∨ w.keepaliveCfg = 0 ∨
      w.max_keepalived ≤ (w.keep.length : Int)) :
    ∃ resp, (hrTryBody env w).2.1 = some resp ∧ resp.force_closed = true ∧
      ∀ b, (hrTryBody env w).1 = .ok b → b = false := by
  simp only [hrTryBody, hpre]
  obtain ⟨hkeep, hka, hmax, hnr, halive⟩ := retireStep_fields
    { w with events := w.events ++ [.preRequestHook], nr := w.nr + 1 }
    { force_closed := false, headers_sent := false,
      closed := false, must_close := env.mustClose }
  set wr := retireStep
    { w with events := w.events ++ [.preRequestHook], nr := w.nr + 1 }
    { force_closed := false, headers_sent := false,
      closed := false, must_close := env.mustClose } with hwr
  have hcond' : wr.1.alive = false ∨ wr.1.keepaliveCfg = 0 ∨
      wr.1.max_keepalived ≤ (wr.1.keep.length : Int) := by
    rcases hcond with h | h | h
    · exact Or.inl (halive h)
    · exact Or.inr (Or.inl (by rw [hka]; exact h))
    · exact Or.inr (Or.inr (by rw [hmax, hkeep]; exact h))
  have hforced : (forceCloseStep wr.1 wr.2).force_closed = true :=
    forceCloseStep_forced wr.1 wr.2 hcond'
  cases happ : env.appCall with
  | error e => exact ⟨forceCloseStep wr.1 wr.2, rfl, hforced, by simp⟩
  | ok it =>
    cases hi : (iterateBody it (forceCloseStep wr.1 wr.2)).1 with
    | error e =>
      refine ⟨(iterateBody it (forceCloseStep wr.1 wr.2)).2, by simp [hi],
        ?_, by simp [hi]⟩
      rw [iterateBody_force_closed]
      exact hforced
    | ok u =>
      have hsc : (iterateBody it (forceCloseStep wr.1 wr.2)).2.should_close
          = true := by
        simp [Resp.should_close, iterateBody_force_closed, hforced]
      simp only [hi, hsc]
      refine ⟨(iterateBody it (forceCloseStep wr.1 wr.2)).2, by simp,
        ?_, by simp⟩
      rw [iterateBody_force_closed]
      exact hforced

theorem hrTryBody_budget (env : TurnEnv) (w : Worker)
    (hpre : env.preRequest = none)
    (hbud : w.max_requests ≤ w.nr + 1) :
    (hrTryBody env w).2.2.alive = false ∧
    ∃ resp, (hrTryBody env w).2.1 = some resp ∧ resp.force_closed = true := by
  simp only [hrTryBody, hpre]
  obtain ⟨hal, hfc⟩ := retireStep_retires
    { w with events := w.events ++ [.preRequestHook], nr := w.nr + 1 }
    { force_closed := false, headers_sent := false,
      closed := false, must_close := env.mustClose } hbud
  set wr := retireStep
    { w with events := w.events ++ [.preRequestHook], nr := w.nr + 1 }
    { force_closed := false, headers_sent := false,
      closed := false, must_close := env.mustClose } with hwr
  have hforced : (forceCloseStep wr.1 wr.2).force_closed = true :=
    forceCloseStep_keeps_forced wr.1 wr.2 hfc
  cases happ : env.appCall with
  | error e => exact ⟨hal, forceCloseStep wr.1 wr.2, rfl, hforced⟩
  | ok it =>
    obtain ⟨-, hfa⟩ := finallyAccess_fields it wr.1
    cases hi : (iterateBody it (forceCloseStep wr.1 wr.2)).1 with
    | error e =>
      refine ⟨by simp [hi, hfa, hal],
        (iterateBody it (forceCloseStep wr.1 wr.2)).2, by simp [hi], ?_⟩
      rw [iterateBody_force_closed]
      exact hforced
    | ok u =>
      have hsc : (iterateBody it (forceCloseStep wr.1 wr.2)).2.should_close
          = true := by
        simp [Resp.should_close, iterateBody_force_closed, hforced]
      refine ⟨by simp [hi, hsc, hfa, hal],
        (iterateBody it (forceCloseStep wr.1 wr.2)).2, by simp [hi, hsc], ?_⟩
      rw [iterateBody_force_closed]
      exact hforced

theorem handle_request_parts (env : TurnEnv) (conn : Conn) (w : Worker) :
    (handle_request env conn w).2.1 = (hrTryBody env w).2.1 ∧
    (handle_request env conn w).2.2.nr = (hrTryBody env w).2.2.nr ∧
    (handle_request env conn w).2.2.alive = (hrTryBody env w).2.2.alive ∧
    (∀ b, (handle_request env conn w).1 = .ok b →
      (hrTryBody env w).1 = .ok b) ∧
    ∃ tail, (handle_request env conn w).2.2.events
        = (hrTryBody env w).2.2.events ++ tail ∧
      Ev.postRequestHook ∈ tail ∧
      (env.postRequestRaises = true → Ev.logException ∈ tail) := by
  simp only [handle_request]
  rcases hb : hrTryBody env w with ⟨r, orsp, w1⟩
  cases hpost : env.postRequestRaises with
  | false =>
    cases r with
    | ok b => exact ⟨rfl, rfl, rfl, by simp, [.postRequestHook], rfl, by simp, by simp⟩
    | error e =>
      by_cases hos : isOSError e = true
      · exact ⟨by simp [hos], by simp [hos], by simp [hos], by simp [hos],
          [.postRequestHook], by simp [hos], by simp, by simp⟩
      · cases orsp with
        | none => exact ⟨by simp [hos], by simp [hos], by simp [hos],
            by simp [hos], [.postRequestHook], by simp [hos], by simp, by simp⟩
        | some resp =>
          cases hh : resp.headers_sent with
          | false => exact ⟨by simp [hos, hh], by simp [hos, hh],
              by simp [hos, hh], by simp [hos, hh],
              [.postRequestHook], by simp [hos, hh], by simp, by simp⟩
          | true => exact ⟨by simp [hos, hh], by simp [hos, hh],
              by simp [hos, hh], by simp [hos, hh],
              [.logException, .sockShutdown conn.sock, .postRequestHook],
              by simp [hos, hh], by simp, by simp⟩
  | true =>
    cases r with
    | ok b => exact ⟨rfl, rfl, rfl, by simp,
        [.postRequestHook, .logException], rfl, by simp, by simp⟩
    | error e =>
      by_cases hos : isOSError e = true
      · exact ⟨by simp [hos], by simp [hos], by simp [hos], by simp [hos],
          [.postRequestHook, .logException], by simp [hos], by simp, by simp⟩
      · cases orsp with
        | none => exact ⟨by simp [hos], by simp [hos], by simp [hos],
            by simp [hos], [.postRequestHook, .logException],
            by simp [hos], by simp, by simp⟩
        | some resp =>
          cases hh : resp.headers_sent with
          | false => exact ⟨by simp [hos, hh], by simp [hos, hh],
              by simp [hos, hh], by simp [hos, hh],
              [.postRequestHook, .logException], by simp [hos, hh],
              by simp, by simp⟩
          | true => exact ⟨by simp [hos, hh], by simp [hos, hh],
              by simp [hos, hh], by simp [hos, hh],
              [.logException, .sockShutdown conn.sock,
               .postRequestHook, .logException],
              by simp [hos, hh], by simp, by simp⟩

theorem handle_no_reuse (henv : HandleEnv) (w : Worker) (conn : Conn)
    (hparse : henv.parserNext = .ok (some ()))
    (hnotrue : ∀ b, (handle_request henv.turn conn w).1 = .ok b → b = false) :
    ∃ w', handle henv w conn
      = ((false, conn), (handle_request henv.turn conn w).2.1, w') := by
  simp only [handle, hparse]
  rcases hh : handle_request henv.turn conn w with ⟨r, orsp, w1⟩
  cases r with
  | ok b =>
    have hbf : b = false := hnotrue b (by rw [hh])
    subst hbf
    exact ⟨w1, by simp⟩
  | error e => exact ⟨handleExcState e conn w1, by simp⟩

/-- C4: a request turn force-closes the response whenever the worker is not
alive, keepalive is configured off, or the keepalive deque has reached
`max_keepalived`; at the `threads=1, worker_connections=1` boundary
(`max_keepalived = 0`) every parsed request turn force-closes the response
and `handle` returns `(False, conn)`, so every connection is closed after
one request. -/
theorem handle_request_force_close_policy (env : TurnEnv) (conn : Conn)
    (w : Worker) :
    (env.preRequest = none →
      (w.alive = false ∨ w.keepaliveCfg = 0 ∨
        w.max_keepalived ≤ (w.keep.length : Int)) →
      ∃ resp, (handle_request env conn w).2.1 = some resp ∧
        resp.force_closed = true) ∧
    (w.threads = 1 → w.worker_connections = 1 →
      w.max_keepalived = w.worker_connections - w.threads →
      env.preRequest = none →
      ∃ resp w', handle { parserNext := .ok (some ()), turn := env } w conn
        = ((false, conn), some resp, w') ∧ resp.force_closed = true) := by
  constructor
  · intro hpre hcond
    obtain ⟨resp, h1, h2, -⟩ := hrTryBody_forced env w hpre hcond
    obtain ⟨horsp, -, -, -, -⟩ := handle_request_parts env conn w
    exact ⟨resp, by rw [horsp]; exact h1, h2⟩
  · intro ht hwc hmax hpre
    have hcond : w.alive = false ∨ w.keepaliveCfg = 0 ∨
        w.max_keepalived ≤ (w.keep.length : Int) := by
      right; right
      rw [hmax, ht, hwc]
      omega
    obtain ⟨resp, h1, h2, h3⟩ := hrTryBody_forced env w hpre hcond
    obtain ⟨horsp, -, -, hok, -⟩ := handle_request_parts env conn w
    have hnotrue : ∀ b, (handle_request env conn w).1 = .ok b → b = false :=
      fun b hb => h3 b (hok b hb)
    obtain ⟨w', hw'⟩ :=
      handle_no_reuse { parserNext := .ok (some ()), turn := env } w conn rfl
        hnotrue
    refine ⟨resp, w', ?_, h2⟩
    rw [hw', horsp, h1]

/-- Closed witness for C4: at `threads=1, worker_connections=1` the turn on
`wSmall` closes the connection and the response is force-closed. -/
theorem handle_request_force_close_policy_witness :
    ∃ resp w',
      handle { parserNext := .ok (some ()), turn := turnEnvEx } wSmall cEx3
        = ((false, cEx3), some resp, w') ∧ resp.force_closed = true :=
  (handle_request_force_close_policy turnEnvEx cEx3 wSmall).2 rfl rfl
    (by decide) rfl

/-- C5: `handle_request` increments `worker.nr` by one; when the incremented
count reaches `max_requests` the worker's alive flag ends up false and the
response is force-closed; and the dispatch loop runs no iteration once the
worker is no longer alive. -/
theorem handle_request_counts_and_retires (env : TurnEnv) (conn : Conn)
    (w : Worker) (hpre : env.preRequest = none) :
    (handle_request env conn w).2.2.nr = w.nr + 1 ∧
    (w.max_requests ≤ w.nr + 1 →
      (handle_request env conn w).2.2.alive = false ∧
      ∃ resp, (handle_request env conn w).2.1 = some resp ∧
        resp.force_closed = true) ∧
    (∀ envs fuel (w' : Worker), w'.alive = false →
      runLoop envs fuel w' = .ok w') := by
  obtain ⟨horsp, hnr, halive, -, -⟩ := handle_request_parts env conn w
  refine ⟨?_, ?_, ?_⟩
  · rw [hnr]
    exact hrTryBody_nr env w hpre
  · intro hbud
    obtain ⟨h1, resp, h2, h3⟩ := hrTryBody_budget env w hpre hbud
    exact ⟨by rw [halive]; exact h1, resp, by rw [horsp]; exact h2, h3⟩
  · intro envs fuel w' hdead
    cases fuel <;> simp [runLoop, hdead]

/-- Closed witness for C5: with `nr = 999` and `max_requests = 1000`, the
1000th request turn retires the worker. -/
theorem handle_request_counts_and_retires_witness :
    (handle_request turnEnvEx cEx3 wBudget).2.2.nr = wBudget.nr + 1 ∧
    (handle_request turnEnvEx cEx3 wBudget).2.2.alive = false :=
  ⟨(handle_request_counts_and_retires turnEnvEx cEx3 wBudget rfl).1,
   ((handle_request_counts_and_retires turnEnvEx cEx3 wBudget rfl).2.1
     (by decide)).1⟩

theorem finallyAccess_mem (it : AppIter) (w : Worker) :
    Ev.logAccess ∈ (finallyAccess it w).events ∧
    (it.hasClose = true → Ev.respiterClosed ∈ (finallyAccess it w).events) := by
  unfold finallyAccess
  cases h : it.hasClose <;> simp [h]

theorem hrTryBody_access_log (env : TurnEnv) (w : Worker) (it : AppIter)
    (hpre : env.preRequest = none) (happ : env.appCall = .ok it) :
    Ev.logAccess ∈ (hrTryBody env w).2.2.events ∧
    (it.hasClose = true →
      Ev.respiterClosed ∈ (hrTryBody env w).2.2.events) := by
  simp only [hrTryBody, hpre, happ]
  set wr := retireStep
    { w with events := w.events ++ [.preRequestHook], nr := w.nr + 1 }
    { force_closed := false, headers_sent := false,
      closed := false, must_close := env.mustClose } with hwr
  obtain ⟨hacc, hrc⟩ := finallyAccess_mem it wr.1
  cases hi : (iterateBody it (forceCloseStep wr.1 wr.2)).1 with
  | error e => exact ⟨by simp [hi, hacc], fun hc => by simp [hi, hrc hc]⟩
  | ok u =>
    by_cases hsc :
        (iterateBody it (forceCloseStep wr.1 wr.2)).2.should_close = true
    · constructor
      · simp only [hi, hsc]
        simp
        exact hacc
      · intro hc
        simp only [hi, hsc]
        simp
        exact hrc hc
    · exact ⟨by simp [hi, hsc, hacc], fun hc => by simp [hi, hsc, hrc hc]⟩

/-- C8: once the body iterator is obtained, the access-log record is written
even when iteration raises, the iterator's `close` is called when it has
one, the `post_request` hook always runs on the way out, a hook failure is
logged, and the hook's failure never changes the turn's outcome. -/
theorem handle_request_logging_discipline (env : TurnEnv) (conn : Conn)
    (w : Worker) (it : AppIter) (hpre : env.preRequest = none)
    (happ : env.appCall = .ok it) :
    Ev.logAccess ∈ (handle_request env conn w).2.2.events ∧
    (it.hasClose = true →
      Ev.respiterClosed ∈ (handle_request env conn w).2.2.events) ∧
    Ev.postRequestHook ∈ (handle_request env conn w).2.2.events ∧
    (env.postRequestRaises = true →
      Ev.logException ∈ (handle_request env conn w).2.2.events) ∧
    (handle_request { env with postRequestRaises := true } conn w).1
      = (handle_request { env with postRequestRaises := false } conn w).1 := by
  obtain ⟨-, -, -, -, tail, hev, hpost, hlog⟩ := handle_request_parts env conn w
  obtain ⟨hacc, hrc⟩ := hrTryBody_access_log env w it hpre happ
  refine ⟨?_, ?_, ?_, ?_, ?_⟩
  · rw [hev]
    exact List.mem_append_left _ hacc
  · intro hc
    rw [hev]
    exact List.mem_append_left _ (hrc hc)
  · rw [hev]
    exact List.mem_append_right _ hpost
  · intro hp
    rw [hev]
    exact List.mem_append_right _ (hlog hp)
  · have hirrel : ∀ b : Bool,
        hrTryBody { env with postRequestRaises := b } w = hrTryBody env w := by
      intro b
      cases env
      rfl
    simp only [handle_request, hirrel]
    rcases hb : hrTryBody env w with ⟨r, orsp, w1⟩
    simp

/-- Closed witness for C8: with an iterator that raises after two chunks the
access log is still written and the post hook still runs. -/
theorem handle_request_logging_discipline_witness :
    Ev.logAccess ∈ (handle_request turnEnvEx cEx3 wEx).2.2.events ∧
    Ev.postRequestHook ∈ (handle_request turnEnvEx cEx3 wEx).2.2.events :=
  ⟨(handle_request_logging_discipline turnEnvEx cEx3 wEx appIterRaising
      rfl rfl).1,
   (handle_request_logging_discipline turnEnvEx cEx3 wEx appIterRaising
      rfl rfl).2.2.1⟩

theorem murderUnregister_sublist (fault : UnregFault) (regs : List (Nat × CB))
    (fd : Nat) (regs' : List (Nat × CB))
    (h : murderUnregister fault regs fd = .ok regs') :
    List.Sublist regs' regs := by
  rcases hf : fault fd with _ | e
  · by_cases hany : (regs.any fun r => r.1 = fd) = true
    · simp only [murderUnregister, pollerUnregister, hf, hany, if_true,
        Except.ok.injEq] at h
      rw [← h]
      exact List.filter_sublist _
    · simp only [murderUnregister, pollerUnregister, hf, hany,
        Bool.false_eq_true, if_false, Except.ok.injEq] at h
      rw [← h]
  · cases e with
    | osError e2 =>
      by_cases hbad : e2 = EBADF
      · simp only [murderUnregister, pollerUnregister, hf, hbad, if_true,
          Except.ok.injEq] at h
        rw [← h]
      · simp [murderUnregister, pollerUnregister, hf, hbad] at h
    | keyError =>
      simp only [murderUnregister, pollerUnregister, hf, Except.ok.injEq] at h
      rw [← h]
    | valueError =>
      simp only [murderUnregister, pollerUnregister, hf, Except.ok.injEq] at h
      rw [← h]
    | sslError eof => simp [murderUnregister, pollerUnregister, hf] at h
    | typeError => simp [murderUnregister, pollerUnregister, hf] at h
    | stopIteration => simp [murderUnregister, pollerUnregister, hf] at h
    | noMoreData => simp [murderUnregister, pollerUnregister, hf] at h
    | runtimeError => simp [murderUnregister, pollerUnregister, hf] at h
    | other => simp [murderUnregister, pollerUnregister, hf] at h

theorem murderLoop_regs_sublist (fault : UnregFault) (now : Int) :
    ∀ (ks : List Conn) (w w' : Worker),
    murderLoop fault now w ks = .ok w' → List.Sublist w'.regs w.regs := by
  intro ks
  induction ks with
  | nil =>
    intro w w' h
    simp only [murderLoop, Except.ok.injEq] at h
    rw [← h]
  | cons c rest ih =>
    intro w w' h
    cases ht : c.timeout with
    | none => simp [murderLoop, ht] at h
    | some t =>
      simp only [murderLoop, ht] at h
      by_cases hgt : t - now > 0
      · rw [if_pos hgt] at h
        simp only [Except.ok.injEq] at h
        rw [← h]
      · rw [if_neg hgt] at h
        cases hequ : murderUnregister fault w.regs c.sock with
        | error e => rw [hequ] at h; simp at h
        | ok regs' =>
          rw [hequ] at h
          exact (ih _ w' h).trans
            (murderUnregister_sublist fault w.regs c.sock regs' hequ)

theorem afterWait_regs (env : IterEnv) (w : Worker) (info : IterInfo) :
    (afterWait env w info).2 = info ∧
    ∀ w' cont, (afterWait env w info).1 = .ok (w', cont) →
      List.Sublist w'.regs w.regs := by
  unfold afterWait
  by_cases hpc : env.parentChanged = true
  · rw [if_pos hpc]
    refine ⟨rfl, ?_⟩
    intro w' cont h
    simp only [Except.ok.injEq, Prod.mk.injEq] at h
    rw [← h.1]
  · rw [if_neg hpc]
    cases hm : murder_keepalived env.fault env.now w with
    | error e =>
      refine ⟨rfl, ?_⟩
      intro w' cont h
      simp at h
    | ok w2 =>
      refine ⟨rfl, ?_⟩
      intro w' cont h
      simp only [Except.ok.injEq, Prod.mk.injEq] at h
      rw [← h.1]
      exact murderLoop_regs_sublist env.fault env.now w.keep w w2 hm

/-- C6: in a saturated iteration (`nr_conns = worker_connections`) the loop
never calls `poller.select` — so no listener callback can register a new
socket, and the registration table can only shrink (by the reaper) — and
instead waits up to 1.0 s (1000 ms) for an in-flight task. -/
theorem run_iteration_backpressure (env : IterEnv) (w : Worker)
    (hsat : w.nr_conns = w.worker_connections) :
    (runIteration env w).2.selectCalled = false ∧
    (runIteration env w).2.waitTimeoutMs = 1000 ∧
    ∀ w' cont, (runIteration env w).1 = .ok (w', cont) →
      List.Sublist w'.regs w.regs := by
  have hlt : ¬(w.nr_conns < w.worker_connections) := by omega
  simp only [runIteration]
  rw [if_neg hlt]
  refine ⟨?_, ?_, ?_⟩
  · rw [(afterWait_regs env _ _).1]
  · rw [(afterWait_regs env _ _).1]
  · intro w' cont h
    have hs := (afterWait_regs env _ _).2 w' cont h
    exact hs

/-- Closed witness for C6: the saturated worker `wSat` skips select and
waits 1000 ms. -/
theorem run_iteration_backpressure_witness :
    (runIteration iterEnvEx wSat).2.selectCalled = false ∧
    (runIteration iterEnvEx wSat).2.waitTimeoutMs = 1000 :=
  ⟨(run_iteration_backpressure iterEnvEx wSat (by decide)).1,
   (run_iteration_backpressure iterEnvEx wSat (by decide)).2.1⟩

theorem workertmpCore_spec (isCygwin : Bool) (suffix : String) (cfg : TmpCfg)
    (old : Nat) (os1 : OSState) (fdir : String) :
    (workertmpCore isCygwin suffix cfg old os1 fdir).1.umask = old ∧
    (workertmpCore isCygwin suffix cfg old os1 fdir).1.created
      = os1.created ++
        [{ path := fdir ++ "/wgunicorn-" ++ suffix, createdUmask := os1.umask,
           owner := (os1.euid, os1.egid) }] ∧
    (workertmpCore isCygwin suffix cfg old os1 fdir).2.fd = os1.nextFd ∧
    (os1.nextFd, fdir ++ "/wgunicorn-" ++ suffix)
      ∈ (workertmpCore isCygwin suffix cfg old os1 fdir).1.fds ∧
    (workertmpCore isCygwin suffix cfg old os1 fdir).2.buffering = 0 ∧
    (workertmpCore isCygwin suffix cfg old os1 fdir).2.mode = "w+b" ∧
    (isCygwin = false →
      ∀ f ∈ (workertmpCore isCygwin suffix cfg old os1 fdir).1.files,
        f.path ≠ fdir ++ "/wgunicorn-" ++ suffix) := by
  unfold workertmpCore
  by_cases hch : cfg.uid ≠ os1.euid ∨ cfg.gid ≠ os1.egid
  · cases hcy : isCygwin
    · refine ⟨by simp [hch], by simp [hch], by simp [hch], by simp [hch],
        by simp [hch], by simp [hch], ?_⟩
      intro _ f hf
      simp only [hch, if_true] at hf
      simp at hf
      exact hf.2
    · exact ⟨by simp [hch], by simp [hch], by simp [hch], by simp [hch],
        by simp [hch], by simp [hch], by simp⟩
  · cases hcy : isCygwin
    · refine ⟨by simp [hch], by simp [hch], by simp [hch], by simp [hch],
        by simp [hch], by simp [hch], ?_⟩
      intro _ f hf
      simp only [hch, if_false] at hf
      simp at hf
      exact hf.2
    · exact ⟨by simp [hch], by simp [hch], by simp [hch], by simp [hch],
        by simp [hch], by simp [hch], by simp⟩

/-- C9: building the liveness beacon creates the temp file under the
configured directory (default temp dir otherwise) with the configured umask
in force, restores the previous umask, and — off Cygwin — unlinks the path
immediately while the descriptor stays open in mode `w+b` with buffering 0
(unbuffered). -/
theorem workertmp_beacon_spec (isCygwin : Bool) (suffix : String)
    (cfg : TmpCfg) (os : OSState)
    (hdir : ∀ d, cfg.worker_tmp_dir = some d → d ∈ os.dirs) :
    ∃ os' h, workertmp_init isCygwin suffix cfg os = .ok (os', h) ∧
      os'.umask = os.umask ∧
      os'.created = os.created ++
        [{ path := (cfg.worker_tmp_dir.getD gettempdir) ++ "/wgunicorn-" ++ suffix,
           createdUmask := cfg.umask, owner := (os.euid, os.egid) }] ∧
      h.fd = os.nextFd ∧
      (h.fd, (cfg.worker_tmp_dir.getD gettempdir) ++ "/wgunicorn-" ++ suffix)
        ∈ os'.fds ∧
      h.buffering = 0 ∧ h.mode = "w+b" ∧
      (isCygwin = false →
        ∀ f ∈ os'.files,
          f.path ≠ (cfg.worker_tmp_dir.getD gettempdir) ++ "/wgunicorn-" ++ suffix) := by
  cases hwt : cfg.worker_tmp_dir with
  | none =>
    obtain ⟨h1, h2, h3, h4, h5, h6, h7⟩ := workertmpCore_spec isCygwin suffix
      cfg os.umask { os with umask := cfg.umask } gettempdir
    refine ⟨_, _, by simp [workertmp_init, hwt], h1, by simpa [hwt] using h2,
      h3, ?_, h5, h6, by simpa [hwt] using h7⟩
    rw [h3]
    simpa [hwt] using h4
  | some d =>
    have hin : d ∈ os.dirs := hdir d hwt
    obtain ⟨h1, h2, h3, h4, h5, h6, h7⟩ := workertmpCore_spec isCygwin suffix
      cfg os.umask { os with umask := cfg.umask } d
    refine ⟨_, _, by simp [workertmp_init, hwt, hin], h1,
      by simpa [hwt] using h2, h3, ?_, h5, h6, by simpa [hwt] using h7⟩
    rw [h3]
    simpa [hwt] using h4

/-- Closed witness for C9: the beacon on `cfgEx`/`osEx` restores umask
0o022 after creating the file with umask 0o077 in force. -/
theorem workertmp_beacon_spec_witness :
    ∃ os' h, workertmp_init false suffixEx cfgEx osEx = .ok (os', h) ∧
      os'.umask = osEx.umask := by
  obtain ⟨os', h, h1, h2, -⟩ := workertmp_beacon_spec false suffixEx cfgEx osEx
    (fun d hd => by
      simp [cfgEx] at hd
      simp [osEx, ← hd])
  exact ⟨os', h, h1, h2⟩
